import Mathlib

/-!
Verification development for the episode-link extractor server (`src/app.py`).

The program scrapes an episode listing page, filters per-episode anchors,
resolves an "Instant DL" anchor on each episode page, drives a headless
browser to poll for a final Google Drive link, and persists a run record to
a JSON log file.  The definitions below are a shallow embedding of the
pure decision logic of that program:

* HTML documents are modelled as the ordered list of their anchor elements
  (the only thing the program ever queries from a parsed page), each anchor
  carrying its `href` attribute (absent, or a possibly empty string), its
  class list and its visible text.
* `urljoin` from `urllib.parse` is an external collaborator; it is kept
  abstract as a `join` parameter.
* Python truthiness of a string (`if href:`) is the test `h != ""`;
  truthiness of an optional string is `o.getD "" != ""`.
* The regular expressions of the source are implemented directly as
  character-list scanners over ASCII text (the source's patterns only
  involve ASCII literals, `\s`, `\d` and case folding).
-/

/-- Substring test: `listContains n h` models Python's `n in h` on the
character lists of the two strings (empty needle matches everything). -/
def listContains (needle : List Char) : List Char → Bool
  | [] => needle.isEmpty
  | c :: t => needle.isPrefixOf (c :: t) || listContains needle t

/-- Python's `needle in hay` on strings. -/
def strContains (hay needle : String) : Bool :=
  listContains needle.data hay.data

/-- Python's `s.startswith(pre)`. -/
def strStarts (s pre : String) : Bool :=
  pre.data.isPrefixOf s.data

/-- Python's `s.lower()` on the ASCII text the program handles: case fold
every character. -/
def strLower (s : String) : String :=
  ⟨s.data.map Char.toLower⟩

/-- Python's `\s` character class, restricted to its ASCII members
(the source only ever feeds it page text around ASCII keywords). -/
def pySpace (c : Char) : Bool :=
  c == ' ' || c == '\t' || c == '\n' || c == '\r' || c == '\x0b' || c == '\x0c'

/-- Match of the pattern `episode\s*\d+` at the head of an already
lowercased character list. -/
def epMatchAt (l : List Char) : Bool :=
  ("episode".data).isPrefixOf l &&
    (match (l.drop 7).dropWhile pySpace with
     | c :: _ => c.isDigit
     | [] => false)

/-- Search of `episode\s*\d+` at every position of a lowercased list. -/
def epSearchAux : List Char → Bool
  | [] => false
  | c :: t => epMatchAt (c :: t) || epSearchAux t

/-- Python's `re.search(r'episode\s*\d+', s, re.IGNORECASE)` as a Bool:
case folding the text first is equivalent to `IGNORECASE` because the
pattern's letters are all lowercase ASCII. -/
def matchesEpisodeRegex (s : String) : Bool :=
  epSearchAux (strLower s).data

/-- An anchor element as the program sees it: the `href` attribute
(`none` when the attribute is absent), the class list, and the visible
text (`get_text(strip=True)` / `.string` of a simple one-string anchor). -/
structure Anchor where
  href : Option String
  classes : List String
  text : String
deriving DecidableEq

/-- An entry produced by the Episode Link Filter
(`{'episode_name': text, 'episode_url': full_url}` in the source). -/
structure EpisodeLink where
  episode_name : String
  episode_url : String
deriving DecidableEq

/-- Rule A of `extract_episode_links` (src/app.py lines 79-91): anchors with
an `href` attribute whose truthy `href` and whose text contains `"Episode"`
but neither `"Season"` nor `"Zip"` (case-sensitive), in page order.
`join` is the external `urljoin` collaborator. -/
def ruleA_links (join : String → String → String)
    (anchors : List Anchor) (base_url : String) : List EpisodeLink :=
  (anchors.filter (fun a => a.href.isSome)).filterMap (fun a =>
    match a.href with
    | some h =>
      if (h != "") && strContains a.text "Episode" &&
         !strContains a.text "Season" && !strContains a.text "Zip"
      then some ⟨a.text, join base_url h⟩ else none
    | none => none)

/-- Rule B of `extract_episode_links` (src/app.py lines 93-106): anchors with
a truthy `href` whose text matches `episode\s*\d+` case-insensitively and
whose lowercased text contains neither `"zip"` nor `"season"`. -/
def ruleB_links (join : String → String → String)
    (anchors : List Anchor) (base_url : String) : List EpisodeLink :=
  (anchors.filter (fun a => a.href.isSome)).filterMap (fun a =>
    match a.href with
    | some h =>
      if (h != "") && matchesEpisodeRegex a.text &&
         !strContains (strLower a.text) "zip" && !strContains (strLower a.text) "season"
      then some ⟨a.text, join base_url h⟩ else none
    | none => none)

/-- The Episode Link Filter `extract_episode_links`: Rule A, and Rule B only
when Rule A produced nothing. -/
def extract_episode_links (join : String → String → String)
    (anchors : List Anchor) (base_url : String) : List EpisodeLink :=
  let ra := ruleA_links join anchors base_url
  if ra.isEmpty then ruleB_links join anchors base_url else ra

/-- Class filter of the resolver's first heuristic:
`soup.find('a', class_=['btn', 'btn-danger'])` matches an anchor as soon as
ANY one of its classes equals an item of the list (BeautifulSoup matches a
list-valued filter against each class of a multi-valued `class` attribute). -/
def h1ClassHit (a : Anchor) : Bool :=
  a.classes.any (fun c => c == "btn" || c == "btn-danger")

/-- Heuristic 1 of `extract_instant_dl_link` (src/app.py lines 120-122):
`some r` when the heuristic returns (`r` being the returned `get('href')`,
which is `none` when the matched anchor has no `href`), `none` when control
falls through to heuristic 2.  The text check `'Instant DL' in get_text()`
is a case-sensitive containment test on the FIRST class-matching anchor. -/
def heuristic1 (anchors : List Anchor) : Option (Option String) :=
  match anchors.find? h1ClassHit with
  | some a => if strContains a.text "Instant DL" then some a.href else none
  | none => none

/-- Heuristic 2 (src/app.py lines 125-127):
`soup.find('a', string=re.compile('Instant DL', re.IGNORECASE))`, a
case-insensitive containment search on the anchor's string. -/
def heuristic2 (anchors : List Anchor) : Option (Option String) :=
  match anchors.find? (fun a => strContains (strLower a.text) "instant dl") with
  | some a => some a.href
  | none => none

/-- Heuristic 3 (src/app.py lines 130-133): the first `href`-carrying anchor
whose lowercased text contains both `"instant"` and `"dl"`. -/
def heuristic3 (anchors : List Anchor) : Option (Option String) :=
  match (anchors.filter (fun a => a.href.isSome)).find? (fun a =>
      strContains (strLower a.text) "instant" && strContains (strLower a.text) "dl") with
  | some a => some a.href
  | none => none

/-- The Intermediate Link Resolver `extract_instant_dl_link`, applied to the
anchors of an already fetched episode page: the three heuristics in order,
each later one evaluated only when the earlier ones fell through. -/
def extract_instant_dl_link (anchors : List Anchor) : Option String :=
  match heuristic1 anchors with
  | some r => r
  | none =>
    match heuristic2 anchors with
    | some r => r
    | none =>
      match heuristic3 anchors with
      | some r => r
      | none => none

/-- The two accepted target URL forms of the poll loop
(src/app.py lines 174-175): `href.startswith(...)` against these strings. -/
def startsAccepted (h : String) : Bool :=
  strStarts h "https://video-downloads.googleusercontent.com" ||
  strStarts h "https://drive.google.com"

/-- One poll iteration (src/app.py lines 167-177): the first truthy `href`
among the rendered anchors that starts with an accepted target form. -/
def pollOnce (hrefs : List String) : Option String :=
  hrefs.find? (fun h => (h != "") && startsAccepted h)

/-- The four scheme-plus-host literal heads generated by the fallback regex
`https?://(?:video-downloads\.googleusercontent\.com|drive\.google\.com)/`.
At any text position at most one of the four can match (the 5th character
distinguishes the schemes, the first host character distinguishes the
hosts), so matching them as alternatives is faithful to the regex. -/
def schemeHosts : List String :=
  ["https://video-downloads.googleusercontent.com/", "https://drive.google.com/",
   "http://video-downloads.googleusercontent.com/", "http://drive.google.com/"]

/-- Character class `[^"\'>\s]` of the fallback regex's tail. -/
def urlTailChar (c : Char) : Bool :=
  !(c == '"' || c == '\'' || c == '>' || pySpace c)

/-- Match of the fallback regex at the head of `l`: the matched text and the
remainder of the input after it.  The tail `[^"\'>\s]+` is greedy and must
be non-empty. -/
def matchUrlAt (l : List Char) : Option (String × List Char) :=
  match schemeHosts.find? (fun p => p.data.isPrefixOf l) with
  | none => none
  | some p =>
    let r := l.drop p.data.length
    let tail := r.takeWhile urlTailChar
    if tail.isEmpty then none
    else some (⟨p.data ++ tail⟩, r.drop tail.length)

/-- Left-to-right non-overlapping scan of `re.findall`: on a match, resume
after the matched text; otherwise advance one character.  The fuel starts at
the input length and cannot run out before the input does, because every
step consumes at least one character. -/
def findAllUrlsAux : Nat → List Char → List String
  | 0, _ => []
  | _, [] => []
  | fuel + 1, c :: t =>
    match matchUrlAt (c :: t) with
    | some (m, rest) => m :: findAllUrlsAux fuel rest
    | none => findAllUrlsAux fuel t

/-- `re.findall` of the fallback regex over the final page content
(src/app.py line 188). -/
def findAllGoogleUrls (content : String) : List String :=
  findAllUrlsAux content.data.length content.data

/-- Everything after the first `://` of a URL, the start of its authority
component (the fallback only parses URLs of that shape, which the regex
guarantees). -/
def afterSchemeSep : List Char → Option (List Char)
  | [] => none
  | ':' :: '/' :: '/' :: r => some r
  | _ :: t => afterSchemeSep t

/-- `urlparse(url).netloc` for a URL with a `://` separator: the authority
runs up to the next `/`, `?` or `#`. -/
def netlocOf (url : String) : String :=
  match afterSchemeSep url.data with
  | none => ""
  | some r => ⟨r.takeWhile (fun c => !(c == '/' || c == '?' || c == '#'))⟩

/-- The budget-exhaustion fallback (src/app.py lines 183-194): the first
regex match whose parsed host contains `"google"`. -/
def fallbackScan (content : String) : Option String :=
  (findAllGoogleUrls content).find? (fun u => strContains (netlocOf u) "google")

/-- The Dynamic Link Poller `extract_google_drive_link_with_browser` on its
non-erroring path, abstracted over the browser: `iterations` lists the
rendered anchor `href`s seen by each poll iteration inside the wait budget,
and `finalContent` is the page snapshot the fallback scans after the budget
is exhausted.  Error paths of the source return `none` without scanning. -/
def extract_google_drive_link_with_browser
    (iterations : List (List String)) (finalContent : String) : Option String :=
  match iterations.findSome? pollOnce with
  | some h => some h
  | none => fallbackScan finalContent

/-- A per-episode result dictionary of `process_main_url`: `none` fields
model keys absent from the dictionary. -/
structure EpisodeResult where
  episode : String
  episode_url : Option String
  instant_dl_url : Option String
  final_download_link : Option String
  status : String
  error : Option String
  timestamp : Option String
deriving DecidableEq

/-- Outcome of the two network stages of one episode's iteration of the
orchestrator loop: either the `try` body raises (caught at src/app.py
line 277 with the exception's message), or it completes with the values of
`extract_instant_dl_link` and `extract_google_drive_link_with_browser`
(each `none` on failure; the string may also be empty, which Python's
truthiness tests treat like `None`). -/
inductive EpisodeStep where
  | raises (msg : String)
  | completes (instant : Option String) (final : Option String)

/-- One iteration of the orchestrator loop (src/app.py lines 227-283),
producing exactly the dictionary the source appends for this episode. -/
def processEpisode (ep : EpisodeLink) (st : EpisodeStep) (ts : String) : EpisodeResult :=
  match st with
  | EpisodeStep.raises msg =>
    { episode := ep.episode_name, episode_url := none, instant_dl_url := none,
      final_download_link := none, status := "failed", error := some msg,
      timestamp := none }
  | EpisodeStep.completes instant final =>
    if instant.getD "" = "" then
      { episode := ep.episode_name, episode_url := none, instant_dl_url := none,
        final_download_link := none, status := "failed",
        error := some "Instant DL link not found", timestamp := none }
    else if final.getD "" = "" then
      { episode := ep.episode_name, episode_url := some ep.episode_url,
        instant_dl_url := instant, final_download_link := none, status := "partial",
        error := some "Final download link not found with headless browser",
        timestamp := none }
    else
      { episode := ep.episode_name, episode_url := some ep.episode_url,
        instant_dl_url := instant, final_download_link := final,
        status := "success", error := none, timestamp := some ts }

/-- The environment a pipeline run interacts with: the fetched-and-parsed
listing page (`none` on a non-200 status or transport error), the outcome of
each episode's network stages by loop index, each episode's completion
timestamp, and the run timestamp `datetime.now().isoformat()`. -/
structure Env where
  fetchMain : Option (List Anchor)
  step : Nat → EpisodeStep
  epTimestamp : Nat → String
  processed_at : String

/-- The orchestrator loop over the filtered episode links, in page order. -/
def processEpisodes (env : Env) (eps : List EpisodeLink) : List EpisodeResult :=
  eps.enum.map (fun p => processEpisode p.2 (env.step p.1) (env.epTimestamp p.1))

/-- `process_main_url` up to (but not including) persistence: the structured
error dictionary is modelled as `Except.error` with the source's message. -/
def process_main_url (join : String → String → String)
    (env : Env) (main_url : String) : Except String (List EpisodeResult) :=
  match env.fetchMain with
  | none => Except.error "Failed to fetch main page"
  | some anchors =>
    let eps := extract_episode_links join anchors main_url
    if eps.isEmpty then Except.error "No episode links found"
    else Except.ok (processEpisodes env eps)

/-- A run record as persisted by `save_results` (src/app.py lines 289-299);
`nPartial` is the record's `partial` count field. -/
structure RunRecord where
  main_url : String
  processed_at : String
  total_episodes : Nat
  successful : Nat
  failed : Nat
  nPartial : Nat
  episodes : List EpisodeResult
deriving DecidableEq

/-- The state of the results file as the reader distinguishes it: absent,
present but empty, present with content `json.loads` rejects, or present
with a parsed list of run records (the only shape the writer produces). -/
inductive FileState where
  | absent
  | emptyFile
  | corrupt
  | holds (log : List RunRecord)
deriving DecidableEq

/-- The `existing_data` that `save_results` recovers from the file
(src/app.py lines 301-310): absence, empty content and a
`json.JSONDecodeError` all leave it at the empty list, and none of them
escapes the function. -/
def readExistingLog : FileState → List RunRecord
  | FileState.absent => []
  | FileState.emptyFile => []
  | FileState.corrupt => []
  | FileState.holds l => l

/-- The `data` dictionary `save_results` builds from a run's results. -/
def save_record (main_url processed_at : String)
    (results : List EpisodeResult) : RunRecord :=
  { main_url := main_url, processed_at := processed_at,
    total_episodes := results.length,
    successful := (results.filter (fun r => r.status == "success")).length,
    failed := (results.filter (fun r => r.status == "failed")).length,
    nPartial := (results.filter (fun r => r.status == "partial")).length,
    episodes := results }

/-- The full log `save_results` writes back: the recovered prior history
with the new record appended. -/
def save_results (main_url processed_at : String)
    (results : List EpisodeResult) (fs : FileState) : List RunRecord :=
  readExistingLog fs ++ [save_record main_url processed_at results]

/-- A whole run including persistence: `process_main_url` saves only after
the loop completes, so on either abort path the file is untouched. -/
def runAndSave (join : String → String → String) (env : Env)
    (main_url : String) (fs : FileState) :
    Except String (List EpisodeResult) × FileState :=
  match process_main_url join env main_url with
  | Except.error e => (Except.error e, fs)
  | Except.ok results =>
    (Except.ok results,
     FileState.holds (save_results main_url env.processed_at results fs))

/-- Python's `os.path.basename` on POSIX: the text after the last slash. -/
def basename (s : String) : String :=
  ⟨(s.data.reverse.takeWhile (fun c => !(c == '/'))).reverse⟩

/-- Python's `os.path.join` on POSIX for two components. -/
def pathJoin (a b : String) : String :=
  if strStarts b "/" then b
  else if a = "" then b
  else if a.data.getLast? = some '/' then a ++ b
  else a ++ "/" ++ b

/-- Responses of the file-download endpoint. -/
inductive HttpResponse where
  | file (path : String)
  | notFound
  | badRequest
deriving DecidableEq

/-- The `/download/{filename}` handler `download_file` (src/app.py
lines 602-619), abstracted over the filesystem predicates `os.path.exists`
and `os.path.isfile`. -/
def download_file (pathExists isfile : String → Bool) (cwd : String)
    (filename : Option String) : HttpResponse :=
  match filename with
  | none => HttpResponse.badRequest
  | some f =>
    if f = "" then HttpResponse.badRequest
    else
      let safe_name := basename f
      let file_path := pathJoin cwd safe_name
      if !pathExists file_path || !isfile file_path then HttpResponse.notFound
      else HttpResponse.file file_path

/-! ## Helper lemmas -/

/-- A list is a Boolean prefix of itself followed by anything. -/
theorem isPrefixOf_append_self (l t : List Char) : l.isPrefixOf (l ++ t) = true := by
  induction l with
  | nil => simp [List.isPrefixOf]
  | cons a as ih => simp [List.isPrefixOf, ih]

/-- Shortening a Boolean prefix keeps it a prefix. -/
theorem isPrefixOf_of_append_left (l t m : List Char)
    (h : (l ++ t).isPrefixOf m = true) : l.isPrefixOf m = true := by
  induction l generalizing m with
  | nil => simp [List.isPrefixOf]
  | cons a as ih =>
    cases m with
    | nil => simp [List.isPrefixOf] at h
    | cons b bs =>
      simp only [List.cons_append, List.isPrefixOf, Bool.and_eq_true] at h ⊢
      exact ⟨h.1, ih bs h.2⟩

/-- Every match the fallback regex produces begins with one of the four
scheme-plus-host heads. -/
theorem matchUrlAt_head (l : List Char) (m : String) (rest : List Char)
    (h : matchUrlAt l = some (m, rest)) :
    ∃ p ∈ schemeHosts, p.data.isPrefixOf m.data = true := by
  unfold matchUrlAt at h
  cases hfind : schemeHosts.find? (fun p => p.data.isPrefixOf l) with
  | none => rw [hfind] at h; exact absurd h (by simp)
  | some p =>
    rw [hfind] at h
    simp only at h
    split at h
    · exact absurd h (by simp)
    · refine ⟨p, List.mem_of_find?_eq_some hfind, ?_⟩
      have hm : m = ⟨p.data ++ (l.drop p.data.length).takeWhile urlTailChar⟩ :=
        (congrArg Prod.fst (Option.some.inj h)).symm
      rw [hm]
      exact isPrefixOf_append_self _ _

/-- Every URL the fallback scan collects begins with one of the four
scheme-plus-host heads. -/
theorem findAllUrlsAux_head (fuel : Nat) (l : List Char) (u : String)
    (h : u ∈ findAllUrlsAux fuel l) :
    ∃ p ∈ schemeHosts, p.data.isPrefixOf u.data = true := by
  induction fuel generalizing l with
  | zero => simp [findAllUrlsAux] at h
  | succ n ih =>
    cases l with
    | nil => simp [findAllUrlsAux] at h
    | cons c t =>
      cases hm : matchUrlAt (c :: t) with
      | none =>
        simp only [findAllUrlsAux, hm] at h
        exact ih t h
      | some pr =>
        simp only [findAllUrlsAux, hm, List.mem_cons] at h
        rcases h with rfl | h
        · exact matchUrlAt_head (c :: t) pr.1 pr.2 (by rw [hm])
        · exact ih pr.2 h

/-- The relaxed target predicate the program actually guarantees: the URL
starts with one of the two accepted `https://` forms, or with the `http://`
variant of one of the two accepted hosts (the fallback regex's `https?`
admits the latter). -/
def startsGoogleTarget (u : String) : Bool :=
  startsAccepted u ||
  strStarts u "http://video-downloads.googleusercontent.com/" ||
  strStarts u "http://drive.google.com/"

/-! ## C1 -/

/-- C1 (amended): every URL the Dynamic Link Poller returns starts with an
accepted scheme-plus-host head: on the polling path with one of the two
accepted `https://` prefixes, and on the fallback path with `https://` or
`http://` immediately followed by one of the two accepted hosts and a
slash.  In particular the poller never returns a URL that merely contains
an accepted domain token inside its query string without starting with such
a head. -/
theorem C1_poller_returns_google_head (iterations : List (List String))
    (finalContent : String) (u : String)
    (h : extract_google_drive_link_with_browser iterations finalContent = some u) :
    startsGoogleTarget u = true := by
  unfold extract_google_drive_link_with_browser at h
  cases hf : iterations.findSome? pollOnce with
  | some v =>
    rw [hf] at h
    obtain ⟨hrefs, _, hp⟩ := List.exists_of_findSome?_eq_some hf
    have hpred := List.find?_some hp
    have hu : v = u := Option.some.inj h
    simp only [Bool.and_eq_true] at hpred
    simp [startsGoogleTarget, hu ▸ hpred.2]
  | none =>
    rw [hf] at h
    have hmem := List.mem_of_find?_eq_some h
    obtain ⟨p, hp, hpre⟩ := findAllUrlsAux_head _ _ _ hmem
    simp only [schemeHosts, List.mem_cons, List.not_mem_nil, or_false] at hp
    rcases hp with rfl | rfl | rfl | rfl
    · have e : ("https://video-downloads.googleusercontent.com/").data
          = ("https://video-downloads.googleusercontent.com").data ++ ['/'] := by decide
      rw [e] at hpre
      have := isPrefixOf_of_append_left _ _ _ hpre
      simp [startsGoogleTarget, startsAccepted, strStarts, this]
    · have e : ("https://drive.google.com/").data
          = ("https://drive.google.com").data ++ ['/'] := by decide
      rw [e] at hpre
      have := isPrefixOf_of_append_left _ _ _ hpre
      simp [startsGoogleTarget, startsAccepted, strStarts, this]
    · simp [startsGoogleTarget, strStarts, hpre]
    · simp [startsGoogleTarget, strStarts, hpre]

/-- C1 counterexample to the claim as stated: after budget exhaustion the
fallback scan returns an `http://` Drive URL found in the page content, and
that URL does not start with either of the two accepted domain prefixes the
poll loop checks. -/
theorem C1_counterexample :
    extract_google_drive_link_with_browser []
        "<a href=http://drive.google.com/file/9 >" = some "http://drive.google.com/file/9" ∧
    startsAccepted "http://drive.google.com/file/9" = false := by
  exact ⟨by decide, by decide⟩

/-- C1 witness: the amended theorem applied to a concrete polling run. -/
theorem C1_witness :
    extract_google_drive_link_with_browser [["https://drive.google.com/file/2"]] ""
      = some "https://drive.google.com/file/2" ∧
    startsGoogleTarget "https://drive.google.com/file/2" = true :=
  ⟨by decide,
   C1_poller_returns_google_head [["https://drive.google.com/file/2"]] ""
     "https://drive.google.com/file/2" (by decide)⟩

/-! ## C2 -/

/-- C2 (amended): if Rule A yields an empty sequence and at least one anchor
has a non-empty `href` and text matching the case-insensitive pattern
`episode\s*\d+` AND its lowercased text excludes `"zip"` and `"season"`,
then Rule B yields a non-empty sequence, and the Filter's output is Rule B's
output.  (The claim as stated omits the zip/season exclusion and the `href`
requirement, which Rule B also enforces.) -/
theorem C2_ruleB_fallback_nonempty (join : String → String → String)
    (anchors : List Anchor) (base : String) (a : Anchor) (h : String)
    (hA : ruleA_links join anchors base = [])
    (hmem : a ∈ anchors) (hhref : a.href = some h) (hne : h ≠ "")
    (hre : matchesEpisodeRegex a.text = true)
    (hzip : strContains (strLower a.text) "zip" = false)
    (hseason : strContains (strLower a.text) "season" = false) :
    ruleB_links join anchors base ≠ [] ∧
    extract_episode_links join anchors base = ruleB_links join anchors base := by
  constructor
  · apply List.ne_nil_of_mem (a := (⟨a.text, join base h⟩ : EpisodeLink))
    apply List.mem_filterMap.mpr
    refine ⟨a, List.mem_filter.mpr ⟨hmem, by simp [hhref]⟩, ?_⟩
    rw [hhref]
    simp [hre, hzip, hseason, hne]
  · unfold extract_episode_links
    simp [hA]

/-- C2 counterexample to the claim as stated: a single anchor whose text is
`"episode 1 zip"` makes Rule A empty and matches the `episode\s*\d+` pattern,
yet Rule B (and the whole Filter) yields the empty sequence because Rule B
also excludes lowercased texts containing `"zip"`. -/
theorem C2_counterexample :
    ruleA_links (fun _ h => h) [⟨some "/x", [], "episode 1 zip"⟩] "b" = [] ∧
    matchesEpisodeRegex "episode 1 zip" = true ∧
    ruleB_links (fun _ h => h) [⟨some "/x", [], "episode 1 zip"⟩] "b" = [] ∧
    extract_episode_links (fun _ h => h) [⟨some "/x", [], "episode 1 zip"⟩] "b" = [] := by
  exact ⟨by decide, by decide, by decide, by decide⟩

/-- C2 witness: the amended theorem applied to a concrete listing whose only
anchor is lowercase `"episode 5"`. -/
theorem C2_witness :
    ruleB_links (fun _ h => h) [⟨some "/x", [], "episode 5"⟩] "b" ≠ [] ∧
    extract_episode_links (fun _ h => h) [⟨some "/x", [], "episode 5"⟩] "b"
      = ruleB_links (fun _ h => h) [⟨some "/x", [], "episode 5"⟩] "b" :=
  C2_ruleB_fallback_nonempty (fun _ h => h) [⟨some "/x", [], "episode 5"⟩] "b"
    ⟨some "/x", [], "episode 5"⟩ "/x" (by decide) (by decide) rfl (by decide)
    (by decide) (by decide) (by decide)

/-! ## C3 -/

/-- C3 (amended): the Resolver's first heuristic inspects only the FIRST
anchor carrying the `"btn"` or the `"btn-danger"` class (either one
suffices; both are not required), and returns that anchor's href exactly
when its visible text contains `"Instant DL"` under a CASE-SENSITIVE
containment check; when it does, the whole Resolver returns that href and
heuristics 2 and 3 are never evaluated. -/
theorem C3_heuristic1_first_class_match (anchors : List Anchor) (a : Anchor)
    (hfind : anchors.find? h1ClassHit = some a)
    (htext : strContains a.text "Instant DL" = true) :
    heuristic1 anchors = some a.href ∧
    extract_instant_dl_link anchors = a.href ∧
    h1ClassHit a = true := by
  have h1 : heuristic1 anchors = some a.href := by
    unfold heuristic1
    rw [hfind]
    simp [htext]
  refine ⟨h1, ?_, List.find?_some hfind⟩
  unfold extract_instant_dl_link
  rw [h1]

/-- C3 counterexample to the claim as stated: an anchor carrying only the
`"btn"` class (no `"btn-danger"`) with text `"Instant DL"` makes heuristic 1
fire and the Resolver return its href, refuting the "both classes" half;
and an anchor carrying both classes whose text differs only in case
(`"instant dl"`) does NOT make heuristic 1 fire, refuting the
"case-insensitive containment" half. -/
theorem C3_counterexample :
    heuristic1 [⟨some "u1", ["btn"], "Instant DL"⟩] = some (some "u1") ∧
    (["btn"] : List String).contains "btn-danger" = false ∧
    extract_instant_dl_link [⟨some "u1", ["btn"], "Instant DL"⟩] = some "u1" ∧
    heuristic1 [⟨some "u2", ["btn", "btn-danger"], "instant dl"⟩] = none := by
  exact ⟨by decide, by decide, by decide, by decide⟩

/-- C3 witness: the amended theorem applied to the spec's own scenario, an
anchor with both classes and text `"Instant DL"` followed by a decoy
`"instant download"` anchor. -/
theorem C3_witness :
    heuristic1 [⟨some "u1", ["btn", "btn-danger"], "Instant DL"⟩,
                ⟨some "u9", [], "instant download"⟩] = some (some "u1") ∧
    extract_instant_dl_link [⟨some "u1", ["btn", "btn-danger"], "Instant DL"⟩,
                             ⟨some "u9", [], "instant download"⟩] = some "u1" ∧
    h1ClassHit ⟨some "u1", ["btn", "btn-danger"], "Instant DL"⟩ = true :=
  C3_heuristic1_first_class_match
    [⟨some "u1", ["btn", "btn-danger"], "Instant DL"⟩,
     ⟨some "u9", [], "instant download"⟩]
    ⟨some "u1", ["btn", "btn-danger"], "Instant DL"⟩ (by decide) (by decide)

/-! ## C7 -/

/-- C7: on the Rule A path the Filter's output excludes every anchor whose
visible text contains `"Season"` or `"Zip"`; and the spec's scenario — three
anchors textually `"Episode 1"`, `"Episode 2"`, `"Season Zip"` — yields
exactly the two episode entries, in page order. -/
theorem C7_ruleA_excludes_season_zip :
    (∀ (join : String → String → String) (anchors : List Anchor)
       (base : String) (e : EpisodeLink),
      e ∈ ruleA_links join anchors base →
      strContains e.episode_name "Season" = false ∧
      strContains e.episode_name "Zip" = false) ∧
    extract_episode_links (fun _ h => h)
        [⟨some "/e1", [], "Episode 1"⟩, ⟨some "/e2", [], "Episode 2"⟩,
         ⟨some "/z", [], "Season Zip"⟩] "https://example.com"
      = [⟨"Episode 1", "/e1"⟩, ⟨"Episode 2", "/e2"⟩] := by
  constructor
  · intro join anchors base e he
    obtain ⟨a, _, hfa⟩ := List.mem_filterMap.mp he
    split at hfa
    · split at hfa
      · rename_i hcond
        simp only [Bool.and_eq_true, Bool.not_eq_true'] at hcond
        rw [← Option.some.inj hfa]
        exact ⟨hcond.1.2, hcond.2⟩
      · exact absurd hfa (by simp)
    · exact absurd hfa (by simp)
  · decide

/-- C7 witness: the universal half applied to the first entry of the
scenario's Rule A output. -/
theorem C7_witness :
    strContains (EpisodeLink.episode_name ⟨"Episode 1", "/e1"⟩) "Season" = false ∧
    strContains (EpisodeLink.episode_name ⟨"Episode 1", "/e1"⟩) "Zip" = false :=
  C7_ruleA_excludes_season_zip.1 (fun _ h => h)
    [⟨some "/e1", [], "Episode 1"⟩, ⟨some "/e2", [], "Episode 2"⟩,
     ⟨some "/z", [], "Season Zip"⟩] "https://example.com"
    ⟨"Episode 1", "/e1"⟩ (by decide)

/-! ## Orchestrator status lemmas -/

/-- Every episode result the loop body produces carries one of the three
statuses of the source. -/
theorem processEpisode_status_cases (ep : EpisodeLink) (st : EpisodeStep) (ts : String) :
    (processEpisode ep st ts).status = "success" ∨
    (processEpisode ep st ts).status = "failed" ∨
    (processEpisode ep st ts).status = "partial" := by
  cases st with
  | raises m => exact Or.inr (Or.inl rfl)
  | completes i f =>
    simp only [processEpisode]
    split
    · exact Or.inr (Or.inl rfl)
    · split
      · exact Or.inr (Or.inr rfl)
      · exact Or.inl rfl

/-- Membership form of the previous lemma, over the whole loop. -/
theorem processEpisodes_status (env : Env) (eps : List EpisodeLink)
    (r : EpisodeResult) (h : r ∈ processEpisodes env eps) :
    r.status = "success" ∨ r.status = "failed" ∨ r.status = "partial" := by
  unfold processEpisodes at h
  obtain ⟨p, _, rfl⟩ := List.mem_map.mp h
  exact processEpisode_status_cases _ _ _

/-- When every element of a list carries one of the three statuses, the
three status tallies sum to the list's length. -/
theorem count_statuses (l : List EpisodeResult)
    (h : ∀ r ∈ l, r.status = "success" ∨ r.status = "failed" ∨ r.status = "partial") :
    (l.filter (fun r => r.status == "success")).length
      + (l.filter (fun r => r.status == "failed")).length
      + (l.filter (fun r => r.status == "partial")).length = l.length := by
  induction l with
  | nil => rfl
  | cons r t ih =>
    have ht := ih (fun x hx => h x (List.mem_cons_of_mem r hx))
    rcases h r (List.mem_cons_self r t) with hr | hr | hr <;>
      simp [List.filter_cons, hr] <;> omega

/-- A successful `process_main_url` returns exactly the loop's results, so
each carries one of the three statuses. -/
theorem process_main_url_status (join : String → String → String) (env : Env)
    (url : String) (res : List EpisodeResult)
    (h : process_main_url join env url = Except.ok res) (r : EpisodeResult)
    (hr : r ∈ res) :
    r.status = "success" ∨ r.status = "failed" ∨ r.status = "partial" := by
  unfold process_main_url at h
  cases hf : env.fetchMain with
  | none => rw [hf] at h; exact absurd h (by simp)
  | some anchors =>
    rw [hf] at h
    simp only at h
    split at h
    · exact absurd h (by simp)
    · have he : processEpisodes env (extract_episode_links join anchors url) = res :=
        Except.ok.inj h
      exact processEpisodes_status env _ r (he ▸ hr)

/-! ## C4 -/

/-- C4: whenever the orchestrator persists a run, the new log is the prior
history plus one record whose counts satisfy
`successful + failed + nPartial = total_episodes` and each count equals the
tally of that record's own episode statuses. -/
theorem C4_run_record_counts (join : String → String → String) (env : Env)
    (url : String) (fs : FileState) (results : List EpisodeResult)
    (newLog : List RunRecord)
    (h : runAndSave join env url fs = (Except.ok results, FileState.holds newLog)) :
    ∃ rec : RunRecord,
      newLog = readExistingLog fs ++ [rec] ∧
      rec.episodes = results ∧
      rec.total_episodes = results.length ∧
      rec.successful + rec.failed + rec.nPartial = rec.total_episodes ∧
      rec.successful = (rec.episodes.filter (fun r => r.status == "success")).length ∧
      rec.failed = (rec.episodes.filter (fun r => r.status == "failed")).length ∧
      rec.nPartial = (rec.episodes.filter (fun r => r.status == "partial")).length := by
  unfold runAndSave at h
  cases hp : process_main_url join env url with
  | error e => rw [hp] at h; exact absurd h (by simp)
  | ok res =>
    rw [hp] at h
    simp only [Prod.mk.injEq] at h
    obtain ⟨h1, h2⟩ := h
    have hres : res = results := Except.ok.inj h1
    have hlog : save_results url env.processed_at res fs = newLog := FileState.holds.inj h2
    subst hres
    refine ⟨save_record url env.processed_at res, ?_, rfl, rfl, ?_, rfl, rfl, rfl⟩
    · rw [← hlog]; rfl
    · exact count_statuses res (process_main_url_status join env url res hp)

/-! ## C5 -/

/-- A result with status `"success"` records the truthy final link. -/
theorem processEpisode_success_link (ep : EpisodeLink) (st : EpisodeStep) (ts : String)
    (hst : (processEpisode ep st ts).status = "success") :
    ∃ s, (processEpisode ep st ts).final_download_link = some s ∧ s ≠ "" := by
  cases st with
  | raises m =>
    have h2 : "failed" = "success" := hst
    exact absurd h2 (by decide)
  | completes i f =>
    by_cases hi : i.getD "" = ""
    · have h2 : "failed" = "success" := by
        have h3 := hst
        simp only [processEpisode, if_pos hi] at h3
        exact h3
      exact absurd h2 (by decide)
    · by_cases hf : f.getD "" = ""
      · have h2 : "partial" = "success" := by
          have h3 := hst
          simp only [processEpisode, if_neg hi, if_pos hf] at h3
          exact h3
        exact absurd h2 (by decide)
      · cases f with
        | none => exact absurd rfl hf
        | some s =>
          refine ⟨s, ?_, hf⟩
          simp only [processEpisode, if_neg hi, if_neg hf]

/-- C5: every EpisodeResult the orchestrator produces with status
`"success"` has a present, non-empty `final_download_link`. -/
theorem C5_success_has_final_link (env : Env) (eps : List EpisodeLink)
    (r : EpisodeResult) (hmem : r ∈ processEpisodes env eps)
    (hst : r.status = "success") :
    ∃ s, r.final_download_link = some s ∧ s ≠ "" := by
  unfold processEpisodes at hmem
  obtain ⟨p, _, rfl⟩ := List.mem_map.mp hmem
  exact processEpisode_success_link _ _ _ hst

/-! ## C6 -/

/-- C6: on a fetch failure or an empty filter result the run returns the
source's structured error and the persistent log file is unchanged. -/
theorem C6_abort_leaves_log_unchanged (join : String → String → String)
    (env : Env) (url : String) (fs : FileState) :
    (env.fetchMain = none →
      runAndSave join env url fs = (Except.error "Failed to fetch main page", fs)) ∧
    (∀ anchors, env.fetchMain = some anchors →
      extract_episode_links join anchors url = [] →
      runAndSave join env url fs = (Except.error "No episode links found", fs)) := by
  constructor
  · intro hf
    unfold runAndSave process_main_url
    rw [hf]
  · intro anchors hf he
    unfold runAndSave process_main_url
    rw [hf]
    simp [he]

/-! ## C8 -/

/-- C8: when the results file is absent, or holds content the JSON parser
rejects, `save_results` treats the prior history as empty and writes a log
containing exactly the one new record; the read/parse failure never escapes
(the function is total and always produces this log). -/
theorem C8_absent_or_corrupt_log_reset (url ts : String)
    (results : List EpisodeResult) :
    save_results url ts results FileState.absent = [save_record url ts results] ∧
    save_results url ts results FileState.corrupt = [save_record url ts results] :=
  ⟨rfl, rfl⟩

/-! ## C9 -/

/-- The basename of any requested name contains no slash. -/
theorem basename_no_slash (s : String) : '/' ∉ (basename s).data := by
  intro hmem
  have hmem2 : '/' ∈ (s.data.reverse.takeWhile (fun c => !(c == '/'))).reverse := hmem
  have h1 := List.mem_reverse.mp hmem2
  have h2 := List.mem_takeWhile_imp h1
  simp at h2

/-- C9: whatever name the download endpoint is asked for, any file it serves
is looked up at the working directory joined with the slash-free basename of
that name (after both filesystem checks passed), so a request naming a path
outside the working directory cannot be served. -/
theorem C9_download_serves_basename_in_cwd (pathExists isfile : String → Bool)
    (cwd f p : String)
    (h : download_file pathExists isfile cwd (some f) = HttpResponse.file p) :
    p = pathJoin cwd (basename f) ∧ '/' ∉ (basename f).data ∧
    pathExists p = true ∧ isfile p = true := by
  simp only [download_file] at h
  split at h
  · exact HttpResponse.noConfusion h
  · split at h
    · exact HttpResponse.noConfusion h
    · rename_i hcond
      have hp : pathJoin cwd (basename f) = p := HttpResponse.file.inj h
      have hex : pathExists (pathJoin cwd (basename f)) = true := by
        cases hb : pathExists (pathJoin cwd (basename f))
        · exact absurd (by simp [hb]) hcond
        · rfl
      have his : isfile (pathJoin cwd (basename f)) = true := by
        cases hb : isfile (pathJoin cwd (basename f))
        · exact absurd (by simp [hb]) hcond
        · rfl
      exact ⟨hp.symm, basename_no_slash f, hp ▸ hex, hp ▸ his⟩

/-! ## C10 -/

/-- The final link key is present exactly on the success branch. -/
theorem processEpisode_link_iff (ep : EpisodeLink) (st : EpisodeStep) (ts : String) :
    ((processEpisode ep st ts).final_download_link.isSome = true ↔
      (processEpisode ep st ts).status = "success") := by
  cases st with
  | raises m =>
    constructor
    · intro hx
      have h2 : (none : Option String).isSome = true := hx
      exact absurd h2 (by decide)
    · intro hx
      have h2 : "failed" = "success" := hx
      exact absurd h2 (by decide)
  | completes i f =>
    by_cases hi : i.getD "" = ""
    · simp only [processEpisode, if_pos hi]
      constructor
      · intro hx; exact absurd hx (by decide)
      · intro hx; exact absurd hx (by decide)
    · by_cases hf : f.getD "" = ""
      · simp only [processEpisode, if_neg hi, if_pos hf]
        constructor
        · intro hx; exact absurd hx (by decide)
        · intro hx; exact absurd hx (by decide)
      · simp only [processEpisode, if_neg hi, if_neg hf]
        constructor
        · intro _; trivial
        · intro _
          cases f with
          | none => exact absurd rfl hf
          | some s => rfl

/-- C10: every EpisodeResult the orchestrator appends has status exactly one
of `"success"`, `"partial"`, `"failed"`, and its `final_download_link` field
is present if and only if its status is `"success"`. -/
theorem C10_status_values_and_link_presence (env : Env) (eps : List EpisodeLink)
    (r : EpisodeResult) (h : r ∈ processEpisodes env eps) :
    (r.status = "success" ∨ r.status = "partial" ∨ r.status = "failed") ∧
    (r.final_download_link.isSome = true ↔ r.status = "success") := by
  unfold processEpisodes at h
  obtain ⟨p, _, rfl⟩ := List.mem_map.mp h
  refine ⟨?_, processEpisode_link_iff _ _ _⟩
  rcases processEpisode_status_cases p.2 (env.step p.1) (env.epTimestamp p.1) with
    hs | hs | hs
  · exact Or.inl hs
  · exact Or.inr (Or.inr hs)
  · exact Or.inr (Or.inl hs)

/-! ## Concrete fixtures for the witnesses -/

/-- A concrete `urljoin` stand-in for closed statements. -/
def idJoin : String → String → String := fun _ h => h

/-- An environment whose single listing anchor leads to one fully
successful episode. -/
def envOneSuccess : Env :=
  { fetchMain := some [⟨some "/e1", [], "Episode 1"⟩],
    step := fun _ =>
      EpisodeStep.completes (some "https://fx/i1") (some "https://drive.google.com/f1"),
    epTimestamp := fun _ => "2024-01-01T00:00:00",
    processed_at := "2024-01-01T00:00:05" }

/-- The result the orchestrator produces for `envOneSuccess`. -/
def resOneSuccess : EpisodeResult :=
  { episode := "Episode 1", episode_url := some "/e1",
    instant_dl_url := some "https://fx/i1",
    final_download_link := some "https://drive.google.com/f1",
    status := "success", error := none, timestamp := some "2024-01-01T00:00:00" }

/-- An environment whose listing fetch fails. -/
def envFetchFail : Env :=
  { fetchMain := none, step := fun _ => EpisodeStep.raises "x",
    epTimestamp := fun _ => "t", processed_at := "now" }

/-- An environment whose listing page has no anchors at all. -/
def envEmptyListing : Env :=
  { fetchMain := some [], step := fun _ => EpisodeStep.raises "x",
    epTimestamp := fun _ => "t", processed_at := "now" }

/-! ## Witnesses -/

/-- C4 witness: the counting theorem applied to a concrete one-episode run
persisted over an absent log file. -/
theorem C4_witness :
    ∃ rec : RunRecord,
      [save_record "u" "2024-01-01T00:00:05" [resOneSuccess]]
        = readExistingLog FileState.absent ++ [rec] ∧
      rec.episodes = [resOneSuccess] ∧
      rec.total_episodes = [resOneSuccess].length ∧
      rec.successful + rec.failed + rec.nPartial = rec.total_episodes ∧
      rec.successful = (rec.episodes.filter (fun r => r.status == "success")).length ∧
      rec.failed = (rec.episodes.filter (fun r => r.status == "failed")).length ∧
      rec.nPartial = (rec.episodes.filter (fun r => r.status == "partial")).length :=
  C4_run_record_counts idJoin envOneSuccess "u" FileState.absent [resOneSuccess]
    [save_record "u" "2024-01-01T00:00:05" [resOneSuccess]] rfl

/-- C5 witness: the success-link theorem applied to the concrete successful
episode. -/
theorem C5_witness :
    ∃ s, resOneSuccess.final_download_link = some s ∧ s ≠ "" :=
  C5_success_has_final_link envOneSuccess [⟨"Episode 1", "/e1"⟩] resOneSuccess
    (by decide) (by decide)

/-- C6 witness: both abort paths at concrete environments, each leaving the
absent log file absent. -/
theorem C6_witness :
    runAndSave idJoin envFetchFail "u" FileState.absent
      = (Except.error "Failed to fetch main page", FileState.absent) ∧
    runAndSave idJoin envEmptyListing "u" FileState.absent
      = (Except.error "No episode links found", FileState.absent) :=
  ⟨(C6_abort_leaves_log_unchanged idJoin envFetchFail "u" FileState.absent).1 rfl,
   (C6_abort_leaves_log_unchanged idJoin envEmptyListing "u" FileState.absent).2
     [] rfl rfl⟩

/-- C9 witness: a traversal request `../../etc/passwd` is served, if at all,
as the file `passwd` directly inside the working directory. -/
theorem C9_witness :
    download_file (fun q => q == "/srv/app/passwd") (fun q => q == "/srv/app/passwd")
      "/srv/app" (some "../../etc/passwd") = HttpResponse.file "/srv/app/passwd" ∧
    ("/srv/app/passwd" = pathJoin "/srv/app" (basename "../../etc/passwd") ∧
     '/' ∉ (basename "../../etc/passwd").data ∧
     (fun q => q == "/srv/app/passwd") "/srv/app/passwd" = true ∧
     (fun q => q == "/srv/app/passwd") "/srv/app/passwd" = true) :=
  ⟨by decide,
   C9_download_serves_basename_in_cwd (fun q => q == "/srv/app/passwd")
     (fun q => q == "/srv/app/passwd") "/srv/app" "../../etc/passwd"
     "/srv/app/passwd" (by decide)⟩

/-- C10 witness: the status-and-presence theorem applied to the concrete
successful episode. -/
theorem C10_witness :
    (resOneSuccess.status = "success" ∨ resOneSuccess.status = "partial" ∨
      resOneSuccess.status = "failed") ∧
    (resOneSuccess.final_download_link.isSome = true ↔
      resOneSuccess.status = "success") :=
  C10_status_values_and_link_presence envOneSuccess [⟨"Episode 1", "/e1"⟩]
    resOneSuccess (by decide)
